import Mathlib

/-!
Verification of the reference-checking pipeline of
`automatic_citation_checker.py` (hallucinated_reference_checker).

The Python source is shallowly embedded: every function below mirrors one
Python function of the source.  Python `str` values become Lean `String`
(scanned as `List Char`); Python integers become `Nat`/`Int`; the float
arithmetic of `edit_distance` (a product of an `int` length and a
`difflib` ratio) is modelled by exact rational arithmetic; the ASCII
fast path of Python's Unicode character classes (`\w`, `\d`, `\s`,
`str.strip`) is modelled by Lean's ASCII character predicates.  The two
network lookup sources (DBLP, Google Scholar) are modelled as oracles:
an environment function mapping each query string to the outcome the
network produced, with one outcome constructor per control path of the
Python code.  Totality of the embedded functions models the fact that
the Python code returns a value (rather than raising) on these paths.
-/

namespace CitationChecker

/-- Indexing with Python-style read of an in-range position; out-of-range
reads return a NUL character (the embedding only ever indexes in range). -/
def charAt (l : List Char) (i : Nat) : Char := l.getD i (Char.ofNat 0)

/-- Python `str.strip()` on a list of characters: drop leading and
trailing whitespace. -/
def pyStrip (l : List Char) : List Char :=
  ((l.dropWhile Char.isWhitespace).reverse.dropWhile Char.isWhitespace).reverse

/-- Worker of `collapseWs`; the flag records whether the previous
character was whitespace, in which case a continuing whitespace run
emits nothing (its single replacement space was already emitted). -/
def collapseWsGo : Bool → List Char → List Char
  | _, [] => []
  | inRun, c :: rest =>
    if c.isWhitespace then
      if inRun then collapseWsGo true rest
      else ' ' :: collapseWsGo true rest
    else c :: collapseWsGo false rest

/-- Python `re.sub(r"\s+", " ", s)`: every maximal run of whitespace
characters is replaced by a single space. -/
def collapseWs (l : List Char) : List Char := collapseWsGo false l

/-- The 32 characters of Python's `string.punctuation`. -/
def pyPunct : List Char :=
  ['!', '"', '#', '$', '%', '&', Char.ofNat 39, '(', ')', '*', '+', ',',
   '-', '.', '/', ':', ';', '<', '=', '>', '?', '@', '[', Char.ofNat 92,
   ']', Char.ofNat 94, '_', Char.ofNat 96, Char.ofNat 123, '|',
   Char.ofNat 125, '~']

/-- `normalize_reference` of the source: lowercase, delete punctuation,
collapse whitespace runs, strip. -/
def normalize_reference (ref : String) : String :=
  let lowered := ref.toList.map Char.toLower
  let noPunct := lowered.filter (fun c => !(pyPunct.contains c))
  String.mk (pyStrip (collapseWs noPunct))

/-- Python `\w` (word character), ASCII model: alphanumeric or underscore. -/
def isWordChar (c : Char) : Bool := c.isAlphanum || c == '_'

/-- `re.search(r"\b\d{4}\b", s)` of the year check in `check_references`:
some position starts a run of exactly four digits delimited by word
boundaries. -/
def hasYearToken (s : String) : Bool :=
  let l := s.toList
  (List.range l.length).any fun i =>
    decide (i + 4 ≤ l.length) &&
    ((List.range 4).all fun t => (charAt l (i + t)).isDigit) &&
    (decide (i = 0) || !(isWordChar (charAt l (i - 1)))) &&
    (decide (i + 4 = l.length) || !(isWordChar (charAt l (i + 4))))

/-- Matches `\(\d{4}\)` at the head of the list; returns the rest on
success. -/
def yearParen : List Char → Option (List Char)
  | '(' :: d1 :: d2 :: d3 :: d4 :: ')' :: rest =>
    if d1.isDigit && d2.isDigit && d3.isDigit && d4.isDigit then some rest
    else none
  | _ => none

/-- The anchored search `re.search(r"^(.+?)\s*\(\d{4}\)", ref)` of
`extract_apa_title`.  The lazy group is grown one character at a time
(Python tries the shortest group first); `.` never matches a newline;
after the group, `\s*\(` forces skipping the maximal whitespace run and
finding `(` immediately after it, because `(` is not whitespace.
`acc` holds the reversed group consumed so far. -/
def authorScan : List Char → List Char → Option (List Char)
  | _, [] => none
  | acc, c :: rest =>
    if c = '\n' then none
    else
      let acc' := c :: acc
      if (yearParen (rest.dropWhile Char.isWhitespace)).isSome then
        some acc'.reverse
      else
        authorScan acc' rest

/-- The tail `\s*(.+?)\.\s` of the title pattern, applied after
`\(\d{4}\)\.` has been consumed, with Python's backtracking order: the
greedy `\s*` tries `k` whitespace characters from the maximal run
downward, and for each `k` the lazy `(.+?)` tries the shortest group
(no newlines) terminated by `.` followed by one whitespace character.
`titleGroup` scans for that lazy group. -/
def titleGroup : List Char → List Char → Option (List Char)
  | _, [] => none
  | acc, c :: rest =>
    if c = '\n' then none
    else
      let acc' := c :: acc
      match rest with
      | '.' :: w :: _ => if w.isWhitespace then some acc'.reverse
                         else titleGroup acc' rest
      | _ => titleGroup acc' rest

/-- Try `\s*(.+?)\.\s` with the greedy `\s*` taking exactly `k`
characters of `tail`. -/
def titleWithWs (tail : List Char) : Nat → Option (List Char)
  | 0 => titleGroup [] tail
  | k + 1 =>
    match titleGroup [] (tail.drop (k + 1)) with
    | some g => some g
    | none => titleWithWs tail k

/-- Matches `\(\d{4}\)\.\s*(.+?)\.\s` anchored at the head of the list. -/
def titleAt (l : List Char) : Option (List Char) :=
  match yearParen l with
  | some ('.' :: tail) =>
    titleWithWs tail ((tail.takeWhile Char.isWhitespace).length)
  | _ => none

/-- The unanchored `re.search(r"\(\d{4}\)\.\s*(.+?)\.\s", ref)`:
leftmost start position wins. -/
def titleSearch : List Char → Option (List Char)
  | [] => none
  | l@(_ :: rest) =>
    match titleAt l with
    | some g => some g
    | none => titleSearch rest

/-- `extract_apa_title` of the source: `query` starts empty, the
stripped author group (if the first pattern matches) is appended, then a
space and the stripped title group (if the second pattern matches). -/
def extract_apa_title (reference : String) : String :=
  let l := reference.toList
  let q1 : List Char :=
    match authorScan [] l with
    | some g => pyStrip g
    | none => []
  let q2 : List Char :=
    match titleSearch l with
    | some g => ' ' :: pyStrip g
    | none => []
  String.mk (q1 ++ q2)

/-!
## difflib.SequenceMatcher

`edit_distance` calls `difflib.SequenceMatcher(None, x, y).ratio()`.
For the argument lengths arising here (< 200) the autojunk heuristic is
inert and there is no junk, so `find_longest_match` is exactly the
`j2len` dynamic program below and its two junk-extension loops never
fire, and `get_matching_blocks` is the recursive decomposition around
the longest match; `ratio` is `2*M/T` for `M` the total size of the
matching blocks and `T` the sum of the lengths (and `1.0` when `T = 0`).
-/

/-- The best block found so far: `(besti, bestj, bestsize)`. -/
structure Best where
  besti : Nat
  bestj : Nat
  bestsize : Nat
deriving DecidableEq

/-- `b2j[c]` of `SequenceMatcher`: the increasing list of positions of
`c` in `b` (no junk, so every position is kept). -/
def positions (b : List Char) (c : Char) : List Nat :=
  (List.range b.length).filter fun j => charAt b j = c

/-- The inner `for j in b2j[a[i]]` loop of `find_longest_match`:
`j2len` is the previous row, `row` the new row being built, and the
best block is updated whenever `k > bestsize`. -/
def innerLoop (j2len : Nat → Nat) (i : Nat) :
    List Nat → (Nat → Nat) → Best → ((Nat → Nat) × Best)
  | [], row, st => (row, st)
  | j :: js, row, st =>
    let k := (if j = 0 then 0 else j2len (j - 1)) + 1
    let st' : Best :=
      if st.bestsize < k then ⟨i + 1 - k, j + 1 - k, k⟩ else st
    innerLoop j2len i js (fun j2 => if j2 = j then k else row j2) st'

/-- The outer `for i in range(alo, ahi)` loop of `find_longest_match`. -/
def outerLoop (a b : List Char) (blo bhi : Nat) :
    List Nat → (Nat → Nat) → Best → Best
  | [], _, st => st
  | i :: is, j2len, st =>
    let js := (positions b (charAt a i)).filter fun j =>
      decide (blo ≤ j) && decide (j < bhi)
    let res := innerLoop j2len i js (fun _ => 0) st
    outerLoop a b blo bhi is res.1 res.2

/-- The window invariant of the running best block: a nonempty best
block lies inside `[alo, ahi) × [blo, bhi)`. -/
def BestBound (alo ahi blo bhi : Nat) (st : Best) : Prop :=
  st.bestsize ≠ 0 →
    alo ≤ st.besti ∧ blo ≤ st.bestj ∧
      st.besti + st.bestsize ≤ ahi ∧ st.bestj + st.bestsize ≤ bhi

/-- `find_longest_match(alo, ahi, blo, bhi)` (no junk, so the two
extension loops of the Python code never move the result). -/
def findLongestMatch (a b : List Char) (alo ahi blo bhi : Nat) : Best :=
  outerLoop a b blo bhi (List.range' alo (ahi - alo)) (fun _ => 0)
    ⟨alo, blo, 0⟩

/-- The recursive block decomposition of `get_matching_blocks`, summed:
total size of all matching blocks in the window.  The fuel only bounds
the recursion depth; `matchTotal` supplies `a.length + b.length + 1`,
which is never exhausted because each recursive window is strictly
smaller (see `mblocks_le`). -/
def mblocks (a b : List Char) : Nat → Nat → Nat → Nat → Nat → Nat
  | 0, _, _, _, _ => 0
  | fuel + 1, alo, ahi, blo, bhi =>
    let st := findLongestMatch a b alo ahi blo bhi
    if st.bestsize = 0 then 0
    else
      st.bestsize + mblocks a b fuel alo st.besti blo st.bestj +
        mblocks a b fuel (st.besti + st.bestsize) ahi
          (st.bestj + st.bestsize) bhi

/-- `sum(size for block in get_matching_blocks())`, the `matches` of
`ratio()`. -/
def matchTotal (a b : List Char) : Nat :=
  mblocks a b (a.length + b.length + 1) 0 a.length 0 b.length

/-- `SequenceMatcher(None, x, y).ratio()` as an exact rational:
`2*M/T`, and `1` when both strings are empty. -/
def smRatioQ (x y : String) : ℚ :=
  if x.length + y.length = 0 then 1
  else (2 * matchTotal x.toList y.toList : ℚ) / (x.length + y.length)

/-- `edit_distance` of the source:
`int(max(len(a), len(b)) * (1 - SequenceMatcher(None,
extract_apa_title(a), extract_apa_title(b)).ratio()))`.
The float product is modelled exactly: since the value is nonnegative,
`int` truncation is the floor, which on naturals is
`max(len a, len b) * (T - 2*M) / T` with `/` the natural division. -/
def edit_distance (a b : String) : Nat :=
  let fa := extract_apa_title a
  let fb := extract_apa_title b
  let M := matchTotal fa.toList fb.toList
  let T := fa.length + fb.length
  if T = 0 then 0 else max a.length b.length * (T - 2 * M) / T

/-!
## Lookup sources and the per-reference verifier loop

The two network sources are modelled as oracles mapping each query to
an outcome, with one constructor per control path of the Python
function.  `check_dblp` swallows every failure into `None`;
`get_citation_from_scholar` returns one of its three literal fallback
triples or a found citation, never raising (the outer
`except Exception` also captures the captcha-wait timeout and the
missing-second-citation index error).
-/

/-- One row of the result table: `(Citation, Source, EditDistance)` as
appended by `check_references`. -/
structure RefRecord where
  citation : String
  source : String
  dist : Nat
deriving DecidableEq

/-- Outcome of the DBLP HTTP request for one query, as distinguished by
`check_dblp`: a top hit (with its `authors`/`title`/`year`/`venue`
fields), an empty hit list, or any transport/parse exception. -/
inductive DblpOutcome where
  | hit (authors : List String) (title year venue : String)
  | noHits
  | transportError
deriving DecidableEq

/-- `check_dblp`: on a hit, synthesize
`"<authors> (<year>). <title>. <venue>."` (authors comma-joined,
empty names dropped); every failure path returns `None`. -/
def check_dblp (out : DblpOutcome) : Option String :=
  match out with
  | .hit authors title year venue =>
    some ((String.intercalate ", " (authors.filter (· ≠ ""))) ++
      " (" ++ year ++ "). " ++ title ++ ". " ++ venue ++ ".")
  | .noHits => none
  | .transportError => none

/-- Outcome of one Google Scholar session for one reference, as
distinguished by the control flow of `get_citation_from_scholar`:
the second rendered citation text on success; the initial wait timing
out; an empty citations list; or any exception (transport error,
captcha-wait timeout, missing element). -/
inductive ScholarOutcome where
  | found (cite : String)
  | initialTimeout
  | emptyCitations
  | exn
deriving DecidableEq

/-- `get_citation_from_scholar`: on success the distance is computed on
the normalized reference and citation; the three failure paths return
their literal `(citation, "Error", 999999)` triples. -/
def get_citation_from_scholar (out : ScholarOutcome) (ref : String) :
    RefRecord :=
  match out with
  | .found cite =>
    ⟨cite, "Scholar",
      edit_distance (normalize_reference ref) (normalize_reference cite)⟩
  | .initialTimeout => ⟨"Not Found", "Error", 999999⟩
  | .emptyCitations => ⟨"Not Found", "Error", 999999⟩
  | .exn => ⟨"Error", "Error", 999999⟩

/-- `dblp_query = title if title else ref` of `check_references`
(Python truthiness: the empty string falls back to the raw text). -/
def dblpQueryOf (ref : String) : String :=
  let title := extract_apa_title ref
  if title = "" then ref else title

/-- A query issued to a lookup source, for instrumentation of the
fallback chain. -/
inductive Query where
  | dblp (q : String)
  | scholar (q : String)
deriving DecidableEq

/-- The body of the `for ref in references` loop of `check_references`
for one reference, instrumented with the list of lookup queries it
issues, in order.  `d` and `s` are the DBLP and Scholar oracles. -/
def processRef (d : String → DblpOutcome) (s : String → ScholarOutcome)
    (ref : String) : RefRecord × List Query :=
  if !hasYearToken ref then
    (⟨"No Year Found", "Error", 999998⟩, [])
  else
    let q := dblpQueryOf ref
    match check_dblp (d q) with
    | some dblpCitation =>
      (⟨dblpCitation, "DBLP",
          edit_distance (normalize_reference ref)
            (normalize_reference dblpCitation)⟩,
        [Query.dblp q])
    | none =>
      (get_citation_from_scholar (s ref) ref,
        [Query.dblp q, Query.scholar ref])

/-- `check_references`: one record per reference, in order (the three
parallel output lists, zipped into records). -/
def check_references (d : String → DblpOutcome)
    (s : String → ScholarOutcome) (references : List String) :
    List RefRecord :=
  references.map fun ref => (processRef d s ref).1

/-!
## Result classification (`process_references` / `report_results`)
-/

/-- One row of the results table handled by `process_references`. -/
structure Row where
  studentRef : String
  source : String
  citation : String
  dist : Nat
deriving DecidableEq

/-- Descending insertion into a list sorted by `dist` descending. -/
def insertDescByDist (r : Row) : List Row → List Row
  | [] => [r]
  | x :: xs =>
    if x.dist ≤ r.dist then r :: x :: xs else x :: insertDescByDist r xs

/-- `sort_values(by="EditDistance", ascending=False)`: a sort of the
rows by distance, descending. -/
def sortDescByDist : List Row → List Row
  | [] => []
  | x :: xs => insertDescByDist x (sortDescByDist xs)

/-- `String.mk (pyStrip ·.toList)`, Python `str.strip` on a `String`. -/
def pyStripS (s : String) : String := String.mk (pyStrip s.toList)

/-- `process_references`: strip the reference and citation columns,
then partition into `(not_found, no_year, filtered, flagged)` exactly
as the four DataFrame filters do. -/
def process_references (maxEditDistance : Nat) (rows : List Row) :
    List Row × List Row × List Row × List Row :=
  let output := rows.map fun r =>
    { r with studentRef := pyStripS r.studentRef,
             citation := pyStripS r.citation }
  let notFound := output.filter fun r => r.dist == 999999
  let noYear := output.filter fun r => r.dist == 999998
  let filtered := sortDescByDist
    (output.filter fun r => r.dist != 999999 && r.dist != 999998)
  let flagged := filtered.filter fun r => maxEditDistance < r.dist
  (notFound, noYear, filtered, flagged)

/-!
## Reference-section location and segmentation
-/

/-- `text.strip().split("\n", 1)[0].strip().lower()` applied to a
page's extracted text. -/
def firstLineKey (text : String) : String :=
  let l := pyStrip text.toList
  String.mk ((pyStrip (l.takeWhile (· ≠ '\n'))).map Char.toLower)

/-- The scan shared by the two loops of
`find_references_section_by_text`: index of the first page satisfying
the predicate, starting the count at `i`. -/
def scanPages (pred : String → Bool) : List String → Nat → Option Nat
  | [], _ => none
  | p :: ps, i => if pred p then some i else scanPages pred ps (i + 1)

/-- `first_line.startswith("references")` (prefix test on the
characters). -/
def refStartPred (p : String) : Bool :=
  "references".toList.isPrefixOf (firstLineKey p).toList

/-- `first_line.startswith("appendix")` (prefix test on the
characters). -/
def appendixPred (p : String) : Bool :=
  "appendix".toList.isPrefixOf (firstLineKey p).toList

/-- The first `for i, page in enumerate(reader.pages)` loop of
`find_references_section_by_text`: index of the first page whose first
line starts with `"references"`. -/
def findStartPage : List String → Nat → Option Nat :=
  scanPages refStartPred

/-- The second loop: index of the first page at or after the given one
whose first line starts with `"appendix"`. -/
def findAppendixPage : List String → Nat → Option Nat :=
  scanPages appendixPred

/-- `find_references_section_by_text`, on the list of per-page texts:
`list(range(start_page, end_page + 1))` or `None`. -/
def find_references_section_by_text (pages : List String) :
    Option (List Nat) :=
  match findStartPage pages 0 with
  | none => none
  | some startPage =>
    let endPage :=
      match findAppendixPage (pages.drop (startPage + 1)) (startPage + 1)
        with
      | some i => i - 1
      | none => pages.length - 1
    some (List.range' startPage (endPage + 1 - startPage))

/-- `text.split("\n\n")` (plain string split on a two-newline
separator, leftmost non-overlapping).  `acc` is the reversed current
piece. -/
def splitNN : List Char → List Char → List (List Char)
  | acc, '\n' :: '\n' :: rest => acc.reverse :: splitNN [] rest
  | acc, c :: rest => splitNN (c :: acc) rest
  | acc, [] => [acc.reverse]

/-- The lookahead `(?=\s{4,})`: at least four whitespace characters
follow. -/
def fourWs : List Char → Bool
  | c1 :: c2 :: c3 :: c4 :: _ =>
    c1.isWhitespace && c2.isWhitespace && c3.isWhitespace &&
      c4.isWhitespace
  | _ => false

/-- `re.split(r"\n(?!\s{4,})", block)`: split on each newline not
followed by four or more whitespace characters (such a newline begins
an indented continuation line and is kept). -/
def splitRefs : List Char → List Char → List (List Char)
  | acc, [] => [acc.reverse]
  | acc, '\n' :: rest =>
    if fourWs rest then splitRefs ('\n' :: acc) rest
    else acc.reverse :: splitRefs [] rest
  | acc, c :: rest => splitRefs (c :: acc) rest

/-- DBLP lookup failure, as seen by `check_references`: the outcomes on
which `check_dblp` returns `None`. -/
def dblpFailed : DblpOutcome → Bool
  | .hit _ _ _ _ => false
  | .noHits => true
  | .transportError => true

/-- Scholar lookup failure, as seen by `check_references`: the outcomes
on which `get_citation_from_scholar` returns an error triple. -/
def scholarFailed : ScholarOutcome → Bool
  | .found _ => false
  | .initialTimeout => true
  | .emptyCitations => true
  | .exn => true

/-- Demo reference of the end-to-end scenario in the specification. -/
def demoRef : String :=
  "Doe, J. (2019). Widgets and gadgets. Journal of Things."

/-- A DBLP oracle answering every query with the demo hit. -/
def demoDblp : String → DblpOutcome := fun _ =>
  DblpOutcome.hit ["Doe, J."] "Widgets and gadgets" "2019"
    "Journal of Things"

/-- A Scholar oracle answering every query with an exception. -/
def demoScholarExn : String → ScholarOutcome := fun _ => ScholarOutcome.exn

/-- The acceptance test of the `for ref in t` loop:
`ref != "" and not ref.startswith("  ") and not ref.startswith("\n")`. -/
def acceptRef (r : List Char) : Bool :=
  !r.isEmpty && !([' ', ' '].isPrefixOf r) && !(['\n'].isPrefixOf r)

/-- The body of the page loop of `extract_references`: take the last
blank-line-delimited block of the page text, split it into candidate
entries, keep the accepted ones with whitespace runs collapsed. -/
def refsOfPage (text : String) : List String :=
  let block := (splitNN [] text.toList).getLastD []
  ((splitRefs [] block).filter acceptRef).map
    fun r => String.mk (collapseWs r)

/-- `extract_references`, on the list of per-page texts and the page
range (Python indexes `reader.pages[p_num]`; in-range indices are the
only ones the callers produce, out-of-range reads are modelled as an
empty page). -/
def extract_references (pages : List String)
    (referencesPageRange : List Nat) : List String :=
  (referencesPageRange.map fun p => refsOfPage (pages.getD p "")).flatten

/-!
## Statement-side definitions used by individual claims
-/

/-- Python `round()` on an exact rational: round half to even. -/
def pyRound (q : ℚ) : ℤ :=
  if q - ⌊q⌋ < 1 / 2 then ⌊q⌋
  else if 1 / 2 < q - ⌊q⌋ then ⌊q⌋ + 1
  else if ⌊q⌋ % 2 = 0 then ⌊q⌋ else ⌊q⌋ + 1

/-- The distance formula exactly as claim C1 words it:
`round(max(len(a_fragment), len(b_fragment)) * (1 - ratio))`, i.e.
Python rounding applied to the maximum of the two *fragment* lengths
(not the full input lengths) scaled by one minus the ratio over the
fragments. -/
def claimC1_distance (a b : String) : ℤ :=
  pyRound
    ((max (extract_apa_title a).length (extract_apa_title b).length : ℚ) *
      (1 - smRatioQ (extract_apa_title a) (extract_apa_title b)))

/-- A very long citation string with no year: its APA fragment is
empty, so a scorer comparison against it degenerates to the full input
length. -/
def bigNoise : String := String.mk (List.replicate 1000000 'b')

/-- Rows exercising all classifier partitions. -/
def demoRows : List Row :=
  [⟨" Alice, A. (2001). Things. ", "DBLP",
      " Alice, A. (2001). Things. Venue. ", 0⟩,
    ⟨"Bob, B. No year.", "Error", "No Year Found", 999998⟩,
    ⟨"Carol, C. (1999). Gone.", "Error", "Not Found", 999999⟩,
    ⟨"Dan, D. (2010). Odd one.", "Scholar", "Dan cite", 45⟩]

/-- Page texts of the end-to-end locator scenario: `"References"` the
sole first line of page 3, `"Appendix"` the first line of page 6. -/
def demoPages : List String :=
  ["Title page", "Intro\ntext", "Body\ntext",
    "References\nDoe, J. (2019). Widgets and gadgets. J. of Things.",
    "Roe, R. (2020). More refs.", "Poe, P. (2021). Last refs.",
    "Appendix\nExtra material"]

/-!
## Lemmas: parenthesis-free strings have empty APA fragments

Both regular expressions of `extract_apa_title` demand a literal `(`.
`normalize_reference` deletes all punctuation, `(` included, so the
fragments of normalized strings are empty and the distance computed on
them is `0`.
-/

theorem yearParen_eq_none {l : List Char} (h : '(' ∉ l) :
    yearParen l = none := by
  rw [yearParen.eq_def]
  split
  · simp_all
  · rfl

theorem mem_of_mem_dropWhile {c : Char} {p : Char → Bool}
    {l : List Char} (h : c ∈ l.dropWhile p) : c ∈ l :=
  (List.dropWhile_suffix p).sublist.mem h

theorem authorScan_eq_none {l : List Char} (h : '(' ∉ l) :
    ∀ acc, authorScan acc l = none := by
  induction l with
  | nil => intro acc; rfl
  | cons c rest ih =>
    intro acc
    rw [authorScan]
    by_cases hc : c = '\n'
    · simp [hc]
    · have hrest : '(' ∉ rest := fun hm => h (List.mem_cons_of_mem _ hm)
      have hdrop : '(' ∉ rest.dropWhile Char.isWhitespace :=
        fun hm => hrest (mem_of_mem_dropWhile hm)
      simp [hc, yearParen_eq_none hdrop, ih hrest]

theorem titleAt_eq_none {l : List Char} (h : '(' ∉ l) :
    titleAt l = none := by
  rw [titleAt, yearParen_eq_none h]

theorem titleSearch_eq_none {l : List Char} (h : '(' ∉ l) :
    titleSearch l = none := by
  induction l with
  | nil => rfl
  | cons c rest ih =>
    rw [titleSearch, titleAt_eq_none h]
    exact ih fun hm => h (List.mem_cons_of_mem _ hm)

theorem extract_apa_title_eq_empty {ref : String}
    (h : '(' ∉ ref.toList) : extract_apa_title ref = "" := by
  rw [extract_apa_title]
  rw [authorScan_eq_none h, titleSearch_eq_none h]
  rfl

theorem mem_pyStrip {c : Char} {l : List Char} (h : c ∈ pyStrip l) :
    c ∈ l := by
  unfold pyStrip at h
  rw [List.mem_reverse] at h
  have h1 := mem_of_mem_dropWhile h
  rw [List.mem_reverse] at h1
  exact mem_of_mem_dropWhile h1

theorem mem_collapseWsGo {c : Char} :
    ∀ (l : List Char) (b : Bool), c ∈ collapseWsGo b l → c = ' ' ∨ c ∈ l := by
  intro l
  induction l with
  | nil => intro b h; simp [collapseWsGo] at h
  | cons x rest ih =>
    intro b h
    by_cases hx : x.isWhitespace = true
    · cases b with
      | true =>
        rw [collapseWsGo, if_pos hx, if_pos rfl] at h
        rcases ih true h with h | h
        · exact Or.inl h
        · exact Or.inr (List.mem_cons_of_mem _ h)
      | false =>
        rw [collapseWsGo, if_pos hx, if_neg (by simp), List.mem_cons] at h
        rcases h with rfl | hm
        · exact Or.inl rfl
        · rcases ih true hm with h | h
          · exact Or.inl h
          · exact Or.inr (List.mem_cons_of_mem _ h)
    · rw [collapseWsGo, if_neg hx, List.mem_cons] at h
      rcases h with rfl | hm
      · exact Or.inr (List.mem_cons_self _ _)
      · rcases ih false hm with h | h
        · exact Or.inl h
        · exact Or.inr (List.mem_cons_of_mem _ h)

theorem mem_collapseWs {c : Char} (l : List Char) (h : c ∈ collapseWs l) :
    c = ' ' ∨ c ∈ l :=
  mem_collapseWsGo l false h

theorem paren_not_mem_normalize (x : String) :
    '(' ∉ (normalize_reference x).toList := by
  intro hmem
  unfold normalize_reference at hmem
  have h1 := mem_pyStrip (l := collapseWs
    ((x.toList.map Char.toLower).filter fun c => !(pyPunct.contains c)))
    hmem
  rcases mem_collapseWs _ h1 with h | h
  · exact absurd h (by decide)
  · rw [List.mem_filter] at h
    exact absurd h.2 (by decide)

/-- The distance the verifier loop actually computes: both arguments
are normalized, hence parenthesis-free, hence both fragments are empty,
the ratio is `1.0` and the distance is `0`. -/
theorem edit_distance_normalized (x y : String) :
    edit_distance (normalize_reference x) (normalize_reference y) = 0 := by
  unfold edit_distance
  rw [extract_apa_title_eq_empty (paren_not_mem_normalize x),
    extract_apa_title_eq_empty (paren_not_mem_normalize y)]
  rfl

/-!
## Claims C2, C3, C5, C10: the verifier loop
-/

/-- C2: a reference containing no 4-digit year token makes the verifier
terminate immediately with the `NO_YEAR` sentinel record
`("No Year Found", "Error", 999998)`, issuing no lookup query at all —
neither DBLP nor Scholar is invoked, whatever the oracles would
answer. -/
theorem c2_no_year_short_circuit (d : String → DblpOutcome)
    (s : String → ScholarOutcome) (ref : String)
    (h : hasYearToken ref = false) :
    processRef d s ref = (⟨"No Year Found", "Error", 999998⟩, []) := by
  simp [processRef, h]

theorem c2_witness :
    hasYearToken "Alice, B. No year here." = false ∧
    processRef (fun _ => DblpOutcome.noHits) (fun _ => ScholarOutcome.exn)
        "Alice, B. No year here." =
      (⟨"No Year Found", "Error", 999998⟩, []) :=
  ⟨by decide,
    c2_no_year_short_circuit _ _ "Alice, B. No year here." (by decide)⟩

/-- C3: for a reference that reaches the lookup stage, DBLP is queried
first, and when DBLP returns a citation the produced record carries the
`"DBLP"` source tag and Scholar is never queried; the query trace is
either `[dblp]` or `[dblp, scholar]`, so a Scholar query is always
preceded by the DBLP attempt. -/
theorem c3_dblp_before_scholar (d : String → DblpOutcome)
    (s : String → ScholarOutcome) (ref : String)
    (h : hasYearToken ref = true) :
    (∀ c, check_dblp (d (dblpQueryOf ref)) = some c →
      processRef d s ref =
        (⟨c, "DBLP",
            edit_distance (normalize_reference ref)
              (normalize_reference c)⟩,
          [Query.dblp (dblpQueryOf ref)])) ∧
    ((processRef d s ref).2 = [Query.dblp (dblpQueryOf ref)] ∨
      (processRef d s ref).2 =
        [Query.dblp (dblpQueryOf ref), Query.scholar ref]) := by
  constructor
  · intro c hc
    simp [processRef, h, hc]
  · cases hdb : check_dblp (d (dblpQueryOf ref)) <;>
      simp [processRef, h, hdb]

theorem c3_witness :
    (processRef demoDblp demoScholarExn demoRef).2 =
        [Query.dblp (dblpQueryOf demoRef)] ∨
      (processRef demoDblp demoScholarExn demoRef).2 =
        [Query.dblp (dblpQueryOf demoRef), Query.scholar demoRef] :=
  (c3_dblp_before_scholar demoDblp demoScholarExn demoRef (by decide)).2

/-- C5: when the DBLP attempt fails (no hit or transport error) and the
Scholar attempt fails (initial wait timeout, empty citations list, or
any exception — including the captcha-wait timeout), the single
reference is classified `"Error"` with the `NOT_FOUND` sentinel 999999,
and the batch loop continues with the remaining references; the
embedded loop is total, modelling that no exception escapes the
per-reference boundary. -/
theorem c5_failures_collapse (d : String → DblpOutcome)
    (s : String → ScholarOutcome) (ref : String) (rs : List String)
    (h1 : hasYearToken ref = true)
    (h2 : check_dblp (d (dblpQueryOf ref)) = none)
    (h3 : scholarFailed (s ref) = true) :
    ((processRef d s ref).1.source = "Error" ∧
      (processRef d s ref).1.dist = 999999) ∧
    check_references d s (ref :: rs) =
      (processRef d s ref).1 :: check_references d s rs := by
  refine ⟨?_, by simp [check_references]⟩
  cases hs : s ref <;>
    simp_all [processRef, h1, h2, get_citation_from_scholar,
      scholarFailed]

theorem c5_witness :
    (((processRef (fun _ => DblpOutcome.transportError)
            (fun _ => ScholarOutcome.initialTimeout)
            "Doe, J. (2019). Vanished paper.").1.source = "Error" ∧
        (processRef (fun _ => DblpOutcome.transportError)
            (fun _ => ScholarOutcome.initialTimeout)
            "Doe, J. (2019). Vanished paper.").1.dist = 999999) ∧
      check_references (fun _ => DblpOutcome.transportError)
          (fun _ => ScholarOutcome.initialTimeout)
          ["Doe, J. (2019). Vanished paper.", "Roe, R. (2020). Next."] =
        (processRef (fun _ => DblpOutcome.transportError)
            (fun _ => ScholarOutcome.initialTimeout)
            "Doe, J. (2019). Vanished paper.").1 ::
          check_references (fun _ => DblpOutcome.transportError)
            (fun _ => ScholarOutcome.initialTimeout)
            ["Roe, R. (2020). Next."]) :=
  c5_failures_collapse _ _ "Doe, J. (2019). Vanished paper."
    ["Roe, R. (2020). Next."] (by decide) (by decide) (by decide)

/-- C10: a record produced by the verifier loop carries the `"Error"`
source tag exactly when its distance is one of the two sentinels 999998
and 999999; a record tagged `"DBLP"` or `"Scholar"` carries a
non-sentinel distance (indeed 0, since both comparands are normalized
and hence have empty APA fragments) together with the citation string
the respective source returned. -/
theorem c10_error_iff_sentinel (d : String → DblpOutcome)
    (s : String → ScholarOutcome) (ref : String) :
    (((processRef d s ref).1.source = "Error") ↔
      ((processRef d s ref).1.dist = 999998 ∨
        (processRef d s ref).1.dist = 999999)) ∧
    ((processRef d s ref).1.source = "DBLP" →
      (processRef d s ref).1.dist ≠ 999998 ∧
      (processRef d s ref).1.dist ≠ 999999 ∧
      check_dblp (d (dblpQueryOf ref)) =
        some (processRef d s ref).1.citation) ∧
    ((processRef d s ref).1.source = "Scholar" →
      (processRef d s ref).1.dist ≠ 999998 ∧
      (processRef d s ref).1.dist ≠ 999999 ∧
      s ref = ScholarOutcome.found (processRef d s ref).1.citation) := by
  by_cases h : hasYearToken ref
  · cases hdb : check_dblp (d (dblpQueryOf ref)) with
    | some c =>
      simp [processRef, h, hdb, edit_distance_normalized]
    | none =>
      cases hs : s ref <;>
        simp [processRef, h, hdb, hs, get_citation_from_scholar,
          edit_distance_normalized]
  · simp [processRef, eq_false_of_ne_true h]

theorem c10_witness :
    (processRef demoDblp demoScholarExn demoRef).1.dist ≠ 999998 ∧
    (processRef demoDblp demoScholarExn demoRef).1.dist ≠ 999999 ∧
    check_dblp (demoDblp (dblpQueryOf demoRef)) =
      some (processRef demoDblp demoScholarExn demoRef).1.citation :=
  (c10_error_iff_sentinel demoDblp demoScholarExn demoRef).2.1 (by decide)

/-!
## Claim C7: symmetry of the scorer
-/

/-- C7 counterexample: the scorer is not symmetric, not even within
rounding.  `SequenceMatcher`'s greedy matching is order-sensitive: on
the fragments `"abcabc"` and `"cba"` it matches only `"a"` (total 1),
while on `"cba"` and `"abcabc"` it matches `"c"` and `"b"` (total 2),
so the two directions give distances 10 and 7. -/
theorem c7_counterexample :
    edit_distance "abcabc (2020)" "cba (2020)" = 10 ∧
      edit_distance "cba (2020)" "abcabc (2020)" = 7 := by
  constructor <;> decide

/-- C7 (amended): the scorer is symmetric whenever the
`SequenceMatcher` match total over the two extracted fragments is
itself symmetric (the length scale `max(len(a), len(b))` and the total
fragment length are always symmetric); in general the greedy match
total, and hence the distance, can differ between the two argument
orders by more than rounding. -/
theorem c7_amended (a b : String)
    (h : matchTotal (extract_apa_title a).toList
          (extract_apa_title b).toList =
        matchTotal (extract_apa_title b).toList
          (extract_apa_title a).toList) :
    edit_distance a b = edit_distance b a := by
  simp only [edit_distance]
  rw [h, Nat.add_comm ((extract_apa_title a).length), Nat.max_comm a.length]

theorem c7_witness :
    edit_distance "x (2020)" "y (2020)" =
      edit_distance "y (2020)" "x (2020)" :=
  c7_amended "x (2020)" "y (2020)" (by decide)

/-!
## Claim C9: segmenter output invariant
-/

theorem collapseWs_ne_nil {l : List Char} (h : l ≠ []) :
    collapseWs l ≠ [] := by
  match l with
  | [] => exact absurd rfl h
  | c :: rest =>
    rw [collapseWs, collapseWsGo]
    split <;> simp

theorem collapseWs_head_not_ws {l : List Char} {c : Char} {t : List Char}
    (h : collapseWs l = c :: t) (hc : c ≠ ' ') : c.isWhitespace = false := by
  match l with
  | [] => simp [collapseWs, collapseWsGo] at h
  | x :: rest =>
    rw [collapseWs, collapseWsGo] at h
    split at h
    · injection h with h1 _
      exact absurd h1.symm hc
    · injection h with h1 _
      subst h1
      simp_all

theorem collapseWsGo_true_head :
    ∀ (l t : List Char), collapseWsGo true l ≠ ' ' :: t := by
  intro l
  induction l with
  | nil => intro t h; simp [collapseWsGo] at h
  | cons x rest ih =>
    intro t h
    rw [collapseWsGo] at h
    split at h
    · exact ih t h
    · rename_i hx
      injection h with h1 _
      subst h1
      simp at hx

theorem collapseWs_not_two_spaces :
    ∀ (l t : List Char), collapseWs l ≠ ' ' :: ' ' :: t := by
  intro l t h
  match l with
  | [] => simp [collapseWs, collapseWsGo] at h
  | x :: rest =>
    rw [collapseWs, collapseWsGo] at h
    split at h
    · injection h with _ h2
      exact collapseWsGo_true_head rest t h2
    · rename_i hx
      injection h with h1 _
      subst h1
      simp at hx

/-- C9 counterexample: on a one-page document whose last text block is
`"a\n \nb"`, the segmenter accepts the middle candidate `" "` — a
single space passes the `ref != ""`, `startswith("  ")` and
`startswith("\n")` tests — so the produced entry list contains a string
that is purely whitespace, i.e. has no non-whitespace content after
collapsing. -/
theorem c9_counterexample :
    " " ∈ extract_references ["Heading\n\na\n \nb"] [0] ∧
      (" " : String).toList.all Char.isWhitespace = true := by
  constructor
  · decide
  · rfl

/-- C9 (amended): every entry produced by the segmenter is non-empty
and starts with neither two spaces of indentation nor a newline (its
whitespace runs have been collapsed to single spaces); it need not
contain any non-whitespace content — a lone space can be produced. -/
theorem c9_amended (pages : List String) (prange : List Nat) (r : String)
    (h : r ∈ extract_references pages prange) :
    r ≠ "" ∧ [' ', ' '].isPrefixOf r.toList = false ∧
      ['\n'].isPrefixOf r.toList = false := by
  rw [extract_references, List.mem_flatten] at h
  obtain ⟨l, hl, hr⟩ := h
  rw [List.mem_map] at hl
  obtain ⟨p, _, rfl⟩ := hl
  rw [refsOfPage, List.mem_map] at hr
  obtain ⟨cand, hcand, rfl⟩ := hr
  rw [List.mem_filter] at hcand
  have hne : cand ≠ [] := by
    have := hcand.2
    rw [acceptRef] at this
    simp only [Bool.and_eq_true, Bool.not_eq_true'] at this
    exact fun hc => by simp [hc] at this
  refine ⟨?_, ?_, ?_⟩
  · intro hmk
    exact collapseWs_ne_nil hne (congrArg String.data hmk)
  · show [' ', ' '].isPrefixOf (collapseWs cand) = false
    match hc : collapseWs cand with
    | [] => rfl
    | [c] => simp [List.isPrefixOf]
    | c :: c' :: t =>
      by_cases h1 : c = ' '
      · by_cases h2 : c' = ' '
        · subst h1; subst h2
          exact absurd hc (collapseWs_not_two_spaces _ _)
        · have hb : (' ' == c') = false := by
            rw [beq_eq_false_iff_ne]
            exact Ne.symm h2
          simp [List.isPrefixOf, hb]
      · have hb : (' ' == c) = false := by
          rw [beq_eq_false_iff_ne]
          exact Ne.symm h1
        simp [List.isPrefixOf, hb]
  · show ['\n'].isPrefixOf (collapseWs cand) = false
    match hc : collapseWs cand with
    | [] => rfl
    | c :: t =>
      have hnl : c ≠ '\n' := by
        by_cases hcc : c = ' '
        · subst hcc; decide
        · have := collapseWs_head_not_ws hc hcc
          intro hcn
          subst hcn
          simp at this
      have hb : ('\n' == c) = false := by
        rw [beq_eq_false_iff_ne]
        exact Ne.symm hnl
      simp [List.isPrefixOf, hb]

theorem c9_witness :
    ("a" : String) ≠ "" ∧
      [' ', ' '].isPrefixOf ("a" : String).toList = false ∧
      ['\n'].isPrefixOf ("a" : String).toList = false :=
  c9_amended ["Heading\n\na\n \nb"] [0] "a" (by decide)

/-!
## Claim C6: the classifier partition
-/

theorem mem_insertDescByDist {r x : Row} :
    ∀ l, r ∈ insertDescByDist x l ↔ r = x ∨ r ∈ l := by
  intro l
  induction l with
  | nil => simp [insertDescByDist]
  | cons y ys ih =>
    rw [insertDescByDist]
    split
    · simp
    · rw [List.mem_cons, List.mem_cons, ih]
      tauto

theorem length_insertDescByDist (x : Row) :
    ∀ l, (insertDescByDist x l).length = l.length + 1 := by
  intro l
  induction l with
  | nil => rfl
  | cons y ys ih =>
    rw [insertDescByDist]
    split
    · rfl
    · simp [ih]

theorem mem_sortDescByDist {r : Row} :
    ∀ l, r ∈ sortDescByDist l ↔ r ∈ l := by
  intro l
  induction l with
  | nil => simp [sortDescByDist]
  | cons y ys ih =>
    rw [sortDescByDist, mem_insertDescByDist, ih, List.mem_cons]

theorem length_sortDescByDist :
    ∀ l : List Row, (sortDescByDist l).length = l.length := by
  intro l
  induction l with
  | nil => rfl
  | cons y ys ih =>
    rw [sortDescByDist, length_insertDescByDist, ih]
    rfl

theorem filter_three_length (l : List Row) :
    (l.filter fun r => r.dist == 999998).length +
      (l.filter fun r => r.dist == 999999).length +
      (l.filter fun r => r.dist != 999999 && r.dist != 999998).length =
      l.length := by
  induction l with
  | nil => rfl
  | cons x xs ih =>
    by_cases h1 : x.dist = 999998 <;> by_cases h2 : x.dist = 999999 <;>
      simp [List.filter_cons, h1, h2] <;> omega

/-- C6: on any record list and threshold, the classifier's three
partitions — `no_year` (distance 999998), `not_found` (distance
999999) and `evaluated` (all remaining records, sorted by distance
descending) — are pairwise disjoint, their sizes sum to the input
size, and `flagged` is exactly the sub-collection of `evaluated` whose
distance strictly exceeds the threshold. -/
theorem c6_partition (maxEditDistance : Nat) (rows : List Row) :
    ((process_references maxEditDistance rows).2.1.length +
        (process_references maxEditDistance rows).1.length +
        (process_references maxEditDistance rows).2.2.1.length =
        rows.length) ∧
    (∀ r, r ∈ (process_references maxEditDistance rows).2.1 →
      r.dist = 999998) ∧
    (∀ r, r ∈ (process_references maxEditDistance rows).1 →
      r.dist = 999999) ∧
    (∀ r, r ∈ (process_references maxEditDistance rows).2.2.1 →
      r.dist ≠ 999998 ∧ r.dist ≠ 999999) ∧
    (∀ r, ¬(r ∈ (process_references maxEditDistance rows).2.1 ∧
      r ∈ (process_references maxEditDistance rows).1)) ∧
    (∀ r, ¬(r ∈ (process_references maxEditDistance rows).2.1 ∧
      r ∈ (process_references maxEditDistance rows).2.2.1)) ∧
    (∀ r, ¬(r ∈ (process_references maxEditDistance rows).1 ∧
      r ∈ (process_references maxEditDistance rows).2.2.1)) ∧
    (∀ r, r ∈ (process_references maxEditDistance rows).2.2.2 ↔
      (r ∈ (process_references maxEditDistance rows).2.2.1 ∧
        maxEditDistance < r.dist)) := by
  simp only [process_references]
  refine ⟨?_, ?_, ?_, ?_, ?_, ?_, ?_, ?_⟩
  · rw [length_sortDescByDist, filter_three_length, List.length_map]
  · intro r hr
    rw [List.mem_filter] at hr
    simpa using hr.2
  · intro r hr
    rw [List.mem_filter] at hr
    simpa using hr.2
  · intro r hr
    rw [mem_sortDescByDist, List.mem_filter] at hr
    have := hr.2
    simp only [Bool.and_eq_true, bne_iff_ne] at this
    exact ⟨this.2, this.1⟩
  · rintro r ⟨h1, h2⟩
    rw [List.mem_filter] at h1 h2
    have e1 := h1.2
    have e2 := h2.2
    simp only [beq_iff_eq] at e1 e2
    omega
  · rintro r ⟨h1, h2⟩
    rw [List.mem_filter] at h1
    rw [mem_sortDescByDist, List.mem_filter] at h2
    have e1 := h1.2
    have e2 := h2.2
    simp only [beq_iff_eq] at e1
    simp only [Bool.and_eq_true, bne_iff_ne] at e2
    exact e2.2 e1
  · rintro r ⟨h1, h2⟩
    rw [List.mem_filter] at h1
    rw [mem_sortDescByDist, List.mem_filter] at h2
    have e1 := h1.2
    have e2 := h2.2
    simp only [beq_iff_eq] at e1
    simp only [Bool.and_eq_true, bne_iff_ne] at e2
    exact e2.1 e1
  · intro r
    rw [List.mem_filter]
    simp

theorem c6_witness :
    ((process_references 30 demoRows).2.1.length +
        (process_references 30 demoRows).1.length +
        (process_references 30 demoRows).2.2.1.length = demoRows.length) ∧
      (⟨"Bob, B. No year.", "Error", "No Year Found", 999998⟩ : Row).dist =
        999998 :=
  ⟨(c6_partition 30 demoRows).1,
    (c6_partition 30 demoRows).2.1
      ⟨"Bob, B. No year.", "Error", "No Year Found", 999998⟩ (by decide)⟩

/-!
## Claim C8: the references-section locator
-/

theorem getD_drop (l : List String) (n m : Nat) (d : String) :
    (l.drop n).getD m d = l.getD (n + m) d := by
  simp [List.getD_eq_getElem?_getD, List.getElem?_drop]

theorem scanPages_eq_none (pred : String → Bool) :
    ∀ (ps : List String) (i0 : Nat),
      (∀ m, m < ps.length → pred (ps.getD m "") = false) →
      scanPages pred ps i0 = none := by
  intro ps
  induction ps with
  | nil => intro i0 _; rfl
  | cons p ps' ih =>
    intro i0 h
    rw [scanPages, if_neg]
    · exact ih (i0 + 1) fun m hm => h (m + 1) (by simpa using hm)
    · have := h 0 (by simp)
      simp_all

theorem scanPages_eq_some (pred : String → Bool) :
    ∀ (ps : List String) (i0 k : Nat), k < ps.length →
      (∀ m, m < k → pred (ps.getD m "") = false) →
      pred (ps.getD k "") = true →
      scanPages pred ps i0 = some (i0 + k) := by
  intro ps
  induction ps with
  | nil => intro i0 k hk; simp at hk
  | cons p ps' ih =>
    intro i0 k hk hbefore hat
    cases k with
    | zero =>
      rw [scanPages, if_pos (by simpa using hat)]
      rfl
    | succ k' =>
      have h0 : pred p = false := by simpa using hbefore 0 (Nat.succ_pos _)
      rw [scanPages, if_neg (by simp [h0])]
      have := ih (i0 + 1) k' (by simpa using hk)
        (fun m hm => by simpa using hbefore (m + 1) (by omega))
        (by simpa using hat)
      rw [this]
      congr 1
      omega

/-- C8: the locator returns the page range starting at the first page
whose first non-empty line (trimmed, lowercased) starts with
`"references"` and ending at the page before the first later page whose
first line starts with `"appendix"` — or at the last page when no such
page exists; it reports absence when no start page exists.  On the
concrete document with `"References"` the sole first line of page 3 and
`"Appendix"` the first line of page 6, it returns exactly `[3, 4, 5]`. -/
theorem c8_locator :
    (∀ pages : List String,
      (∀ m, m < pages.length → refStartPred (pages.getD m "") = false) →
      find_references_section_by_text pages = none) ∧
    (∀ (pages : List String) (start app : Nat),
      start < pages.length →
      (∀ m, m < start → refStartPred (pages.getD m "") = false) →
      refStartPred (pages.getD start "") = true →
      start < app → app < pages.length →
      (∀ m, start < m → m < app →
        appendixPred (pages.getD m "") = false) →
      appendixPred (pages.getD app "") = true →
      find_references_section_by_text pages =
        some (List.range' start (app - start))) ∧
    (∀ (pages : List String) (start : Nat),
      start < pages.length →
      (∀ m, m < start → refStartPred (pages.getD m "") = false) →
      refStartPred (pages.getD start "") = true →
      (∀ m, start < m → m < pages.length →
        appendixPred (pages.getD m "") = false) →
      find_references_section_by_text pages =
        some (List.range' start (pages.length - start))) ∧
    find_references_section_by_text demoPages = some [3, 4, 5] := by
  have hstart : ∀ (pages : List String) (start : Nat),
      start < pages.length →
      (∀ m, m < start → refStartPred (pages.getD m "") = false) →
      refStartPred (pages.getD start "") = true →
      findStartPage pages 0 = some start := by
    intro pages start h1 h2 h3
    have := scanPages_eq_some refStartPred pages 0 start h1 h2 h3
    simpa using this
  refine ⟨?_, ?_, ?_, by decide⟩
  · intro pages h
    rw [find_references_section_by_text, findStartPage,
      scanPages_eq_none refStartPred pages 0 h]
  · intro pages start app h1 h2 h3 h4 h5 h6 h7
    have happ : findAppendixPage (pages.drop (start + 1)) (start + 1) =
        some app := by
      rw [findAppendixPage]
      have := scanPages_eq_some appendixPred (pages.drop (start + 1))
        (start + 1) (app - (start + 1))
        (by rw [List.length_drop]; omega)
        (fun m hm => by
          rw [getD_drop]
          exact h6 (start + 1 + m) (by omega) (by omega))
        (by
          rw [getD_drop]
          have : start + 1 + (app - (start + 1)) = app := by omega
          rw [this]
          exact h7)
      rw [this]
      congr 1
      omega
    have harg : app - 1 + 1 - start = app - start := by omega
    simp only [find_references_section_by_text,
      hstart pages start h1 h2 h3, happ, harg]
  · intro pages start h1 h2 h3 h4
    have happ : findAppendixPage (pages.drop (start + 1)) (start + 1) =
        none := by
      rw [findAppendixPage]
      refine scanPages_eq_none appendixPred _ _ fun m hm => ?_
      rw [List.length_drop] at hm
      rw [getD_drop]
      exact h4 (start + 1 + m) (by omega) (by omega)
    have harg : pages.length - 1 + 1 - start = pages.length - start := by
      omega
    simp only [find_references_section_by_text,
      hstart pages start h1 h2 h3, happ, harg]

theorem c8_witness :
    find_references_section_by_text demoPages =
      some (List.range' 3 (6 - 3)) :=
  c8_locator.2.1 demoPages 3 6 (by decide) (by decide) (by decide)
    (by decide) (by decide)
    (by intro m hm1 hm2; interval_cases m <;> decide) (by decide)

/-!
## Claim C4: sentinels versus real distances
-/

/-- The scorer's output never exceeds the longer input length: the
ratio is at most 1, so the scaled product is at most
`max(len(a), len(b))`. -/
theorem edit_distance_le_max (a b : String) :
    edit_distance a b ≤ max a.length b.length := by
  simp only [edit_distance]
  split
  · exact Nat.zero_le _
  · rename_i hT
    refine le_trans
      (Nat.div_le_div_right (Nat.mul_le_mul_left _ (Nat.sub_le _ _))) ?_
    exact le_of_eq (Nat.mul_div_cancel _ (Nat.pos_of_ne_zero hT))

/-- `edit_distance` expressed through the two already-extracted
fragments. -/
theorem edit_distance_of_fragments {a b fa fb : String}
    (hfa : extract_apa_title a = fa) (hfb : extract_apa_title b = fb) :
    edit_distance a b =
      if fa.length + fb.length = 0 then 0
      else
        max a.length b.length *
          (fa.length + fb.length - 2 * matchTotal fa.toList fb.toList) /
          (fa.length + fb.length) := by
  rw [edit_distance, hfa, hfb]

/-- C4 counterexample: the scorer can return values at and above the
sentinels.  Against a 1000000-character no-year string the fragments
are `"x"` and `""`, the ratio is 0, and the distance is the full input
length 1000000 — not strictly below 999998 or 999999. -/
theorem c4_counterexample :
    edit_distance "x (2020)" bigNoise = 1000000 ∧
      ¬(edit_distance "x (2020)" bigNoise < 999998 ∧
        edit_distance "x (2020)" bigNoise < 999999) := by
  have htl : bigNoise.toList = List.replicate 1000000 'b' := rfl
  have hb : '(' ∉ bigNoise.toList := by
    rw [htl, List.mem_replicate]
    simp
  have h2 : extract_apa_title bigNoise = "" :=
    extract_apa_title_eq_empty hb
  have h1 : extract_apa_title "x (2020)" = "x" := by decide
  have hlen : bigNoise.length = 1000000 := by
    have h : bigNoise.length = (List.replicate 1000000 'b').length := rfl
    rw [h, List.length_replicate]
  have hmain : edit_distance "x (2020)" bigNoise = 1000000 := by
    rw [edit_distance_of_fragments h1 h2, hlen]
    decide
  exact ⟨hmain, by omega⟩

/-- C4 (amended): the scorer's distance is bounded by the longer input
length, so for every pair of citation strings both shorter than 999998
characters the distance is strictly below both sentinels 999998 and
999999 (real bibliography entries are far below this bound; for
unboundedly long inputs the sentinels can be reached, see the
counterexample). -/
theorem c4_amended (a b : String) (ha : a.length < 999998)
    (hb : b.length < 999998) :
    edit_distance a b < 999998 ∧ edit_distance a b < 999999 := by
  have hle := edit_distance_le_max a b
  have hm : max a.length b.length < 999998 := Nat.max_lt.mpr ⟨ha, hb⟩
  omega

theorem c4_witness :
    ("x (2020)" : String).length < 999998 ∧
      ("y (2021)" : String).length < 999998 ∧
      edit_distance "x (2020)" "y (2021)" < 999998 ∧
      edit_distance "x (2020)" "y (2021)" < 999999 :=
  ⟨by decide, by decide,
    (c4_amended "x (2020)" "y (2021)" (by decide) (by decide)).1,
    (c4_amended "x (2020)" "y (2021)" (by decide) (by decide)).2⟩

/-!
## Claim C1: the scorer formula

The `j2len` dynamic program only ever records blocks lying inside the
current window, so the greedy block total is bounded by both window
sizes; this makes `2*M ≤ T` and lets the natural division of
`edit_distance` be rewritten as a rational floor.
-/

theorem innerLoop_ok (alo ahi blo bhi : Nat) (j2len : Nat → Nat) (i : Nat)
    (hialo : alo ≤ i) (hiahi : i < ahi)
    (hprev : ∀ j, j2len j ≤ j + 1 - blo ∧ j2len j ≤ i - alo) :
    ∀ (js : List Nat) (row : Nat → Nat) (st : Best),
      (∀ j ∈ js, blo ≤ j ∧ j < bhi) →
      (∀ j, row j ≤ j + 1 - blo ∧ row j ≤ i + 1 - alo) →
      BestBound alo ahi blo bhi st →
      (∀ j, (innerLoop j2len i js row st).1 j ≤ j + 1 - blo ∧
          (innerLoop j2len i js row st).1 j ≤ i + 1 - alo) ∧
      BestBound alo ahi blo bhi (innerLoop j2len i js row st).2 := by
  intro js
  induction js with
  | nil =>
    intro row st _ hrow hst
    exact ⟨hrow, hst⟩
  | cons j js' ih =>
    intro row st hjs hrow hst
    have hjmem := hjs j (List.mem_cons_self _ _)
    have hk1 : (if j = 0 then 0 else j2len (j - 1)) + 1 ≤ j + 1 - blo := by
      by_cases hj0 : j = 0
      · rw [if_pos hj0]
        omega
      · rw [if_neg hj0]
        have h := (hprev (j - 1)).1
        omega
    have hk2 : (if j = 0 then 0 else j2len (j - 1)) + 1 ≤ i + 1 - alo := by
      by_cases hj0 : j = 0
      · rw [if_pos hj0]
        omega
      · rw [if_neg hj0]
        have h := (hprev (j - 1)).2
        omega
    rw [innerLoop]
    refine ih _ _ (fun j2 hj2 => hjs j2 (List.mem_cons_of_mem _ hj2))
      ?_ ?_
    · intro j2
      by_cases hj2 : j2 = j
      · subst hj2
        simp only [if_pos rfl]
        exact ⟨hk1, hk2⟩
      · simp only [if_neg hj2]
        exact hrow j2
    · by_cases hlt :
        st.bestsize < (if j = 0 then 0 else j2len (j - 1)) + 1
      · rw [if_pos hlt]
        intro _
        refine ⟨?_, ?_, ?_, ?_⟩ <;> dsimp only <;> omega
      · rw [if_neg hlt]
        exact hst

theorem outerLoop_ok (a b : List Char) (alo blo bhi ahi : Nat) :
    ∀ (n s : Nat), alo ≤ s → s + n ≤ ahi →
      ∀ row : Nat → Nat,
        (∀ j, row j ≤ j + 1 - blo ∧ row j ≤ s - alo) →
        ∀ st, BestBound alo ahi blo bhi st →
          BestBound alo ahi blo bhi
            (outerLoop a b blo bhi (List.range' s n) row st) := by
  intro n
  induction n with
  | zero =>
    intro s _ _ row _ st hst
    exact hst
  | succ n' ih =>
    intro s hs hsn row hrow st hst
    have hr : List.range' s (n' + 1) = s :: List.range' (s + 1) n' := rfl
    rw [hr, outerLoop]
    have hjs : ∀ j ∈ (positions b (charAt a s)).filter
        (fun j => decide (blo ≤ j) && decide (j < bhi)),
        blo ≤ j ∧ j < bhi := by
      intro j hj
      rw [List.mem_filter] at hj
      have h := hj.2
      simp only [Bool.and_eq_true, decide_eq_true_eq] at h
      exact h
    have h := innerLoop_ok alo ahi blo bhi row s hs (by omega) hrow
      ((positions b (charAt a s)).filter
        (fun j => decide (blo ≤ j) && decide (j < bhi)))
      (fun _ => 0) st hjs (fun j => ⟨Nat.zero_le _, Nat.zero_le _⟩) hst
    exact ih (s + 1) (by omega) (by omega) _ h.1 _ h.2

theorem findLongestMatch_ok (a b : List Char) (alo ahi blo bhi : Nat) :
    BestBound alo ahi blo bhi (findLongestMatch a b alo ahi blo bhi) := by
  rw [findLongestMatch]
  by_cases hle : alo ≤ ahi
  · exact outerLoop_ok a b alo blo bhi ahi (ahi - alo) alo le_rfl
      (by omega) (fun _ => 0) (fun j => ⟨Nat.zero_le _, Nat.zero_le _⟩)
      ⟨alo, blo, 0⟩ (fun h => absurd rfl h)
  · have h0 : ahi - alo = 0 := by omega
    rw [h0]
    exact fun h => absurd rfl h

theorem mblocks_le (a b : List Char) :
    ∀ (fuel alo ahi blo bhi : Nat),
      mblocks a b fuel alo ahi blo bhi ≤ ahi - alo ∧
        mblocks a b fuel alo ahi blo bhi ≤ bhi - blo := by
  intro fuel
  induction fuel with
  | zero =>
    intro alo ahi blo bhi
    exact ⟨Nat.zero_le _, Nat.zero_le _⟩
  | succ f ih =>
    intro alo ahi blo bhi
    simp only [mblocks]
    by_cases h0 : (findLongestMatch a b alo ahi blo bhi).bestsize = 0
    · rw [if_pos h0]
      exact ⟨Nat.zero_le _, Nat.zero_le _⟩
    · rw [if_neg h0]
      obtain ⟨h1, h2, h3, h4⟩ := findLongestMatch_ok a b alo ahi blo bhi h0
      obtain ⟨hL1, hL2⟩ := ih alo (findLongestMatch a b alo ahi blo bhi).besti
        blo (findLongestMatch a b alo ahi blo bhi).bestj
      obtain ⟨hR1, hR2⟩ := ih
        ((findLongestMatch a b alo ahi blo bhi).besti +
          (findLongestMatch a b alo ahi blo bhi).bestsize) ahi
        ((findLongestMatch a b alo ahi blo bhi).bestj +
          (findLongestMatch a b alo ahi blo bhi).bestsize) bhi
      constructor <;> omega

/-- The greedy matching total never exceeds either input length. -/
theorem matchTotal_le (x y : List Char) :
    matchTotal x y ≤ x.length ∧ matchTotal x y ≤ y.length := by
  have h := mblocks_le x y (x.length + y.length + 1) 0 x.length 0 y.length
  rw [matchTotal]
  omega

/-- Natural division of the scaled complement is the rational floor. -/
theorem floor_ratio_eq (L M T : Nat) (hT : T ≠ 0) (h2M : 2 * M ≤ T) :
    ((L * (T - 2 * M) / T : ℕ) : ℤ) =
      ⌊(L : ℚ) * (1 - 2 * (M : ℚ) / (T : ℚ))⌋ := by
  have hTpos : 0 < T := Nat.pos_of_ne_zero hT
  have hTQ : (0 : ℚ) < (T : ℚ) := by exact_mod_cast hTpos
  have harg : (L : ℚ) * (1 - 2 * (M : ℚ) / (T : ℚ)) =
      ((L * (T - 2 * M) : ℕ) : ℚ) / (T : ℚ) := by
    rw [Nat.cast_mul, Nat.cast_sub h2M]
    push_cast
    field_simp
  rw [harg]
  symm
  rw [Int.floor_eq_iff]
  constructor
  · rw [le_div_iff₀ hTQ]
    exact_mod_cast Nat.div_mul_le_self (L * (T - 2 * M)) T
  · rw [div_lt_iff₀ hTQ]
    have h2 : L * (T - 2 * M) < (L * (T - 2 * M) / T + 1) * T := by
      rw [Nat.mul_comm (L * (T - 2 * M) / T + 1) T]
      exact Nat.lt_mul_div_succ _ hTpos
    exact_mod_cast h2

/-- C1 (amended): the scorer's value is the FLOOR (Python `int`
truncation, not `round`) of `max(len(a), len(b))` — the FULL input
lengths, not the fragment lengths — times one minus the
`SequenceMatcher` ratio computed over the two extracted APA
fragments. -/
theorem c1_amended (a b : String) :
    (edit_distance a b : ℤ) =
      ⌊(max a.length b.length : ℚ) *
        (1 - smRatioQ (extract_apa_title a) (extract_apa_title b))⌋ := by
  rw [edit_distance_of_fragments rfl rfl, smRatioQ]
  by_cases hT : (extract_apa_title a).length +
      (extract_apa_title b).length = 0
  · rw [if_pos hT, if_pos hT]
    norm_num
  · rw [if_neg hT, if_neg hT]
    have hM := matchTotal_le (extract_apa_title a).toList
      (extract_apa_title b).toList
    have hla : (extract_apa_title a).toList.length =
        (extract_apa_title a).length := rfl
    have hlb : (extract_apa_title b).toList.length =
        (extract_apa_title b).length := rfl
    have h2M : 2 * matchTotal (extract_apa_title a).toList
        (extract_apa_title b).toList ≤
        (extract_apa_title a).length + (extract_apa_title b).length := by
      omega
    have h := floor_ratio_eq (max a.length b.length)
      (matchTotal (extract_apa_title a).toList (extract_apa_title b).toList)
      ((extract_apa_title a).length + (extract_apa_title b).length)
      hT h2M
    rw [h, Nat.cast_add, Nat.cast_max]

theorem pyRound_up {q : ℚ} {z : ℤ} (h1 : ⌊q⌋ = z) (h2 : 1 / 2 < q - z) :
    pyRound q = z + 1 := by
  rw [pyRound, h1, if_neg (by linarith), if_pos h2]

/-- C1 counterexample: the claimed formula
`round(max(len(a_fragment), len(b_fragment)) * (1 - ratio))` gives 5 on
the pair below (fragments `"abcabc"`/`"cba"`, ratio 2/9, round(14/3)),
but the code computes `int(max(len(a), len(b)) * (1 - ratio))` over the
FULL input lengths with truncation, giving 10. -/
theorem c1_counterexample :
    (edit_distance "abcabc (2020)" "cba (2020)" : ℤ) ≠
      claimC1_distance "abcabc (2020)" "cba (2020)" := by
  have hfa : extract_apa_title "abcabc (2020)" = "abcabc" := by decide
  have hfb : extract_apa_title "cba (2020)" = "cba" := by decide
  have hM : matchTotal ("abcabc" : String).toList
      ("cba" : String).toList = 1 := by decide
  have hl1 : ("abcabc" : String).length = 6 := by decide
  have hl2 : ("cba" : String).length = 3 := by decide
  have hrat : smRatioQ "abcabc" "cba" = 2 / 9 := by
    rw [smRatioQ, hM, hl1, hl2]
    norm_num
  have hlhs : edit_distance "abcabc (2020)" "cba (2020)" = 10 := by decide
  have hrhs : claimC1_distance "abcabc (2020)" "cba (2020)" = 5 := by
    rw [claimC1_distance, hfa, hfb, hrat, hl1, hl2]
    have hmax : max ((6 : ℕ) : ℚ) ((3 : ℕ) : ℚ) = 6 := by norm_num
    rw [hmax]
    have hq : (6 : ℚ) * (1 - 2 / 9) = 14 / 3 := by norm_num
    rw [hq]
    have hfl : ⌊(14 / 3 : ℚ)⌋ = 4 := by
      rw [Int.floor_eq_iff]
      constructor <;> norm_num
    rw [pyRound_up hfl (by norm_num)]
    norm_num
  rw [hlhs, hrhs]
  decide

end CitationChecker
